import Mathlib

/-!
Verification of the worker shift-scheduling MILP formulation found in
`planning/workers.py` and `planning/workers_st.py`.

The two Python files build the same Pyomo model: binary variables
`works[worker, station, day, shift]`, a binary `needed[worker]`, reals
`total_hours[worker]` and `deviation[worker]`, a maximizing objective
`sum(works) - fairness_weight * sum(deviation)` (weight 10 in `workers.py`,
1 in `workers_st.py`), and a `ConstraintList` filled in a fixed order:
hours accounting, shift exclusivity, day/night pairing, the consecutive-day
rest rule, station capacity, the two deviation inequalities, and the
one-sided `needed` activation constraint.

The embedding below represents a linear expression syntactically as a list
of (coefficient, variable) terms plus a constant, a constraint row as a
comparison of two such expressions, and the model as the list of rows built
exactly in the source's loop order.  A solver value map is a function
`VarId → ℚ`; satisfaction of the model is satisfaction of every row.
The result-extraction helpers (`get_work_table`, `generate_worker_schedule`,
`get_workers_needed`) are translated as pure functions of the value map.
-/

/-- Day labels, from the source: `days = ["Mon", ..., "Sun"]`. -/
def days : List String := ["Mon", "Tue", "Wed", "Thu", "Fri", "Sat", "Sun"]

/-- Shift labels, from the source: `shifts = ["day", "night"]`. -/
def shifts : List String := ["day", "night"]

/-- Identifiers of the Pyomo model's decision variables. -/
inductive VarId where
  | works (w : String) (s : Nat) (d : String) (sh : String)
  | needed (w : String)
  | total_hours (w : String)
  | deviation (w : String)
deriving DecidableEq

/-- A linear expression: a list of (coefficient, variable) terms plus a
constant, mirroring the linear expressions Pyomo accumulates. -/
structure LinExpr where
  terms : List (ℚ × VarId)
  const : ℚ
deriving DecidableEq

/-- Expression consisting of a single variable. -/
def varE (x : VarId) : LinExpr := ⟨[(1, x)], 0⟩

/-- Constant expression. -/
def numE (c : ℚ) : LinExpr := ⟨[], c⟩

/-- Sum of two linear expressions. -/
def addE (a b : LinExpr) : LinExpr := ⟨a.terms ++ b.terms, a.const + b.const⟩

/-- Difference of two linear expressions. -/
def subE (a b : LinExpr) : LinExpr :=
  ⟨a.terms ++ b.terms.map (fun t => (-t.1, t.2)), a.const - b.const⟩

/-- Scalar multiple of a linear expression. -/
def smulE (c : ℚ) (a : LinExpr) : LinExpr :=
  ⟨a.terms.map (fun t => (c * t.1, t.2)), c * a.const⟩

/-- Sum of a list of linear expressions, as Python's `sum(...)` builds it. -/
def sumE (l : List LinExpr) : LinExpr := l.foldr addE (numE 0)

/-- A constraint row: comparison of two linear expressions. -/
inductive Row where
  | le (a b : LinExpr)
  | ge (a b : LinExpr)
  | eq (a b : LinExpr)
deriving DecidableEq

/-- Value of a linear expression under a value map. -/
def evalE (v : VarId → ℚ) (e : LinExpr) : ℚ :=
  (e.terms.map fun t => t.1 * v t.2).sum + e.const

/-- Satisfaction of one constraint row. -/
def satCon (v : VarId → ℚ) : Row → Prop
  | .le a b => evalE v a ≤ evalE v b
  | .ge a b => evalE v a ≥ evalE v b
  | .eq a b => evalE v a = evalE v b

instance (v : VarId → ℚ) : (c : Row) → Decidable (satCon v c)
  | .le _ _ => inferInstanceAs (Decidable (_ ≤ _))
  | .ge _ _ => inferInstanceAs (Decidable (_ ≥ _))
  | .eq _ _ => inferInstanceAs (Decidable (_ = _))

/-- Index set of the `works` variables, mirroring the generator
`((worker, station, day, shift) for worker ... for shift ...)`. -/
def works_index (workers : List String) (stations : List Nat) :
    List (String × Nat × String × String) :=
  workers.flatMap fun w => stations.flatMap fun s => days.flatMap fun d =>
    shifts.map fun sh => (w, s, d, sh)

/-- Average hours per worker, from the source:
`average_hours = len(stations) * len(days) * len(shifts) / len(workers)`.
Python's true division of these integers is modelled as exact division
in ℚ (it raises ZeroDivisionError when `workers` is empty, handled in
`build_model`). -/
def average_hours (workers : List String) (stations : List Nat) : ℚ :=
  (stations.length * days.length * shifts.length : ℚ) / workers.length

/-- Total assignments of one worker:
`sum(model.works[worker, station, day, shift] for station ... for shift ...)`. -/
def sum_works (stations : List Nat) (w : String) : LinExpr :=
  sumE (stations.flatMap fun s => days.flatMap fun d =>
    shifts.map fun sh => varE (.works w s d sh))

/-- Objective expression: `sum(works) - fairness_weight * sum(deviation)`
(maximize).  The fairness weight is 10 in `workers.py` and 1 in
`workers_st.py`. -/
def objective (workers : List String) (stations : List Nat)
    (fairness_weight : ℚ) : LinExpr :=
  subE
    (sumE (workers.flatMap fun w => stations.flatMap fun s => days.flatMap fun d =>
      shifts.map fun sh => varE (.works w s d sh)))
    (smulE fairness_weight (sumE (workers.map fun w => varE (.deviation w))))

/-- Hours-accounting row for one worker:
`model.total_hours[worker] == sum(model.works[worker, ...])`. -/
def hours_con (stations : List Nat) (w : String) : Row :=
  .eq (varE (.total_hours w)) (sum_works stations w)

/-- All hours-accounting rows, in the source's loop order. -/
def hours_cons (workers : List String) (stations : List Nat) : List Row :=
  workers.map (hours_con stations)

/-- Shift-exclusivity row (1):
`sum(works[worker, station, day, shift] for station) <= 1`. -/
def excl_con (stations : List Nat) (w : String) (d sh : String) : Row :=
  .le (sumE (stations.map fun s => varE (.works w s d sh))) (numE 1)

/-- All shift-exclusivity rows, loops ordered day, shift, worker. -/
def excl_cons (workers : List String) (stations : List Nat) : List Row :=
  days.flatMap fun d => shifts.flatMap fun sh =>
    workers.map fun w => excl_con stations w d sh

/-- Day/night pairing row (2):
`works[worker, station, day, "day"] == works[worker, station, day, "night"]`. -/
def pairing_con (s : Nat) (d : String) (w : String) : Row :=
  .eq (varE (.works w s d "day")) (varE (.works w s d "night"))

/-- All pairing rows, loops ordered station, day, worker. -/
def pairing_cons (workers : List String) (stations : List Nat) : List Row :=
  stations.flatMap fun s => days.flatMap fun d =>
    workers.map fun w => pairing_con s d w

/-- Rest-rule row (3) for day index `i`:
`sum(works[w, s, days[i], sh] + works[w, s, days[i + 1 if i < len(days) - 1 else 0], sh]
for s ... for sh ...) <= 2`. -/
def rest_con (stations : List Nat) (w : String) (i : Nat) : Row :=
  .le
    (sumE (stations.flatMap fun s => shifts.map fun sh =>
      addE (varE (.works w s (days.getD i "") sh))
        (varE (.works w s
          (days.getD (if i < days.length - 1 then i + 1 else 0) "") sh))))
    (numE 2)

/-- All rest-rule rows, loops ordered `i in range(len(days))`, worker. -/
def rest_cons (workers : List String) (stations : List Nat) : List Row :=
  (List.range days.length).flatMap fun i =>
    workers.map fun w => rest_con stations w i

/-- Station-capacity row (3bis):
`sum(works[worker, station, day, shift] for worker) <= 2`. -/
def capacity_con (workers : List String) (s : Nat) (d sh : String) : Row :=
  .le (sumE (workers.map fun w => varE (.works w s d sh))) (numE 2)

/-- All capacity rows, loops ordered station, day, shift. -/
def capacity_cons (workers : List String) (stations : List Nat) : List Row :=
  stations.flatMap fun s => days.flatMap fun d =>
    shifts.map fun sh => capacity_con workers s d sh

/-- Deviation rows (4) for one worker: `deviation[w] >= total_hours[w] - average_hours`
then `deviation[w] >= average_hours - total_hours[w]`. -/
def deviation_cons_of (workers : List String) (stations : List Nat)
    (w : String) : List Row :=
  [.ge (varE (.deviation w))
      (subE (varE (.total_hours w)) (numE (average_hours workers stations))),
   .ge (varE (.deviation w))
      (subE (numE (average_hours workers stations)) (varE (.total_hours w)))]

/-- All deviation rows, per worker. -/
def deviation_cons (workers : List String) (stations : List Nat) : List Row :=
  workers.flatMap (deviation_cons_of workers stations)

/-- Big-M constant: `max_possible_shifts = len(stations) * len(days) * len(shifts)`. -/
def max_possible_shifts (stations : List Nat) : Nat :=
  stations.length * days.length * shifts.length

/-- Needed-flag row (5):
`model.needed[worker] * max_possible_shifts >= total_assignments`. -/
def needed_con (stations : List Nat) (w : String) : Row :=
  .ge (smulE (max_possible_shifts stations) (varE (.needed w)))
    (sum_works stations w)

/-- All needed-flag rows, per worker. -/
def needed_cons (workers : List String) (stations : List Nat) : List Row :=
  workers.map (needed_con stations)

/-- The full `ConstraintList`, concatenated in the order the source adds
the rows. -/
def build_constraints (workers : List String) (stations : List Nat) : List Row :=
  hours_cons workers stations ++ excl_cons workers stations ++
    pairing_cons workers stations ++ rest_cons workers stations ++
    capacity_cons workers stations ++ deviation_cons workers stations ++
    needed_cons workers stations

/-- The MILP model: variable index set, objective, constraint rows. -/
structure Model where
  works_index : List (String × Nat × String × String)
  obj : LinExpr
  constraints : List Row
deriving DecidableEq

/-- Errors a build can end in.  `zeroDivisionError` is Python's
ZeroDivisionError, raised by `build_model` at the `average_hours` division
when the worker list is empty.  `invalidConfiguration` is the error class
the specification's taxonomy names; the source never raises it (no
validation code exists), and it is included only so statements can compare
the two. -/
inductive BuildError where
  | invalidConfiguration
  | zeroDivisionError
deriving DecidableEq

/-- Model assembled by `build_model` in `workers_st.py` (fairness weight 1)
for a non-empty worker list.  `workers.py` builds the same variables and
constraint rows with weight 10 and fixed global parameters. -/
def build_model_ok (workers : List String) (stations : List Nat) : Model :=
  { works_index := works_index workers stations
    obj := objective workers stations 1
    constraints := build_constraints workers stations }

/-- Translation of `build_model(workers, stations)`.  With an empty worker
list the computation `len(...) / len(workers)` raises ZeroDivisionError,
so no model is returned; otherwise the full model is produced. -/
def build_model (workers : List String) (stations : List Nat) :
    Except BuildError Model :=
  if workers.length = 0 then .error .zeroDivisionError
  else .ok (build_model_ok workers stations)

/-- The build-then-solve pipeline, abstracting the external solver as a
function from a model to a value map: when the build errors, the solver is
never applied. -/
def run_pipeline (solve : Model → (VarId → ℚ)) (workers : List String)
    (stations : List Nat) : Except BuildError (VarId → ℚ) :=
  match build_model workers stations with
  | .error e => .error e
  | .ok m => .ok (solve m)

/-- Satisfaction of the whole model: every constraint row holds. -/
def satModel (v : VarId → ℚ) (m : Model) : Prop :=
  ∀ c ∈ m.constraints, satCon v c

instance (v : VarId → ℚ) (m : Model) : Decidable (satModel v m) :=
  List.decidableBAll _ _

/-- Translation of `get_work_table`: the nested dict
`station -> day -> shift -> list of workers` where
`works[worker, station, day, shift].value == 1` (exact numeric equality with
1, as the source tests).  The worker loop is outermost, so each inner list
keeps the worker-list order. -/
def get_work_table (v : VarId → ℚ) (workers : List String)
    (stations : List Nat) :
    List (Nat × List (String × List (String × List String))) :=
  stations.map fun s => (s, days.map fun d => (d, shifts.map fun sh =>
    (sh, workers.filter fun w => decide (v (.works w s d sh) = 1))))

/-- Lookup into the nested roster table (Python's `schedule[station][day][shift]`). -/
def table_lookup (tbl : List (Nat × List (String × List (String × List String))))
    (s : Nat) (d sh : String) : List String :=
  (((((tbl.lookup s).getD []).lookup d).getD []).lookup sh).getD []

/-- Assignment strings collected for one worker by `generate_worker_schedule`:
for each (station, day, shift) in loop order, `"Station {station} - {day} {shift}"`
when `works[...].value == 1`. -/
def worker_assignments (v : VarId → ℚ) (stations : List Nat) (w : String) :
    List String :=
  (stations.flatMap fun s => days.flatMap fun d =>
      shifts.map fun sh => (s, d, sh)).filterMap fun t =>
    if v (.works w t.1 t.2.1 t.2.2) = 1 then
      some ("Station " ++ toString t.1 ++ " - " ++ t.2.1 ++ " " ++ t.2.2)
    else none

/-- Translation of `generate_worker_schedule`: every worker of the list is
given an entry, holding its (possibly empty) assignment list. -/
def generate_worker_schedule (v : VarId → ℚ) (workers : List String)
    (stations : List Nat) : List (String × List String) :=
  workers.map fun w => (w, worker_assignments v stations w)

/-- Translation of `get_workers_needed`:
`[worker for worker in workers if needed[worker].value == 1]`. -/
def get_workers_needed (v : VarId → ℚ) (workers : List String) : List String :=
  workers.filter fun w => decide (v (.needed w) = 1)

/-- Stations as the Streamlit app computes them from the configured count:
`stations = list(range(num_stations+1))`. -/
def stations_of (num_stations : Nat) : List Nat := List.range (num_stations + 1)

/-- Variables mentioned by a constraint row, on either side. -/
def conVars : Row → List VarId
  | .le a b => a.terms.map Prod.snd ++ b.terms.map Prod.snd
  | .ge a b => a.terms.map Prod.snd ++ b.terms.map Prod.snd
  | .eq a b => a.terms.map Prod.snd ++ b.terms.map Prod.snd

/-- A value map satisfying every built model: all `works`, `needed` and
`total_hours` values 0, every `deviation` value the average (which is what
|0 − average| equals). -/
def avg_v (workers : List String) (stations : List Nat) : VarId → ℚ
  | .deviation _ => average_hours workers stations
  | _ => 0

/-- A value map assigning 9/10 to every variable, as a solver reporting a
binary variable with floating error could. -/
def cex_v : VarId → ℚ := fun _ => 9 / 10

/-- A value map assigning 1 to every variable. -/
def one_v : VarId → ℚ := fun _ => 1

/-! ### Evaluation lemmas for the expression layer -/

theorem evalE_varE (v : VarId → ℚ) (x : VarId) : evalE v (varE x) = v x := by
  simp [evalE, varE]

theorem evalE_numE (v : VarId → ℚ) (c : ℚ) : evalE v (numE c) = c := by
  simp [evalE, numE]

theorem evalE_addE (v : VarId → ℚ) (a b : LinExpr) :
    evalE v (addE a b) = evalE v a + evalE v b := by
  simp [evalE, addE]
  ring

theorem sum_map_negf {α : Type} (l : List α) (f : α → ℚ) :
    (l.map fun x => -(f x)).sum = -((l.map f).sum) := by
  induction l with
  | nil => simp
  | cons a t ih => simp [ih]; ring

theorem sum_map_mulf {α : Type} (l : List α) (f : α → ℚ) (c : ℚ) :
    (l.map fun x => c * f x).sum = c * (l.map f).sum := by
  induction l with
  | nil => simp
  | cons a t ih => simp [ih]; ring

theorem evalE_subE (v : VarId → ℚ) (a b : LinExpr) :
    evalE v (subE a b) = evalE v a - evalE v b := by
  simp only [evalE, subE, List.map_append, List.sum_append, List.map_map,
    Function.comp_def, neg_mul]
  rw [sum_map_negf b.terms (fun t => t.1 * v t.2)]
  ring

theorem evalE_smulE (v : VarId → ℚ) (c : ℚ) (a : LinExpr) :
    evalE v (smulE c a) = c * evalE v a := by
  simp only [evalE, smulE, List.map_map, Function.comp_def, mul_assoc]
  rw [sum_map_mulf a.terms (fun t => t.1 * v t.2) c]
  ring

theorem evalE_sumE (v : VarId → ℚ) (l : List LinExpr) :
    evalE v (sumE l) = (l.map (evalE v)).sum := by
  induction l with
  | nil => simp [sumE, numE, evalE]
  | cons a t ih =>
    have h : sumE (a :: t) = addE a (sumE t) := rfl
    rw [h, evalE_addE, ih, List.map_cons, List.sum_cons]

theorem sumE_terms (l : List LinExpr) :
    (sumE l).terms = l.flatMap LinExpr.terms := by
  induction l with
  | nil => rfl
  | cons a t ih =>
    have h : sumE (a :: t) = addE a (sumE t) := rfl
    rw [h]
    simp [addE, ih]

theorem avg_v_works_eq (workers : List String) (stations : List Nat)
    (w : String) (s : Nat) (d sh : String) :
    avg_v workers stations (VarId.works w s d sh) = 0 := rfl

theorem avg_v_needed_eq (workers : List String) (stations : List Nat)
    (w : String) : avg_v workers stations (VarId.needed w) = 0 := rfl

theorem avg_v_total_eq (workers : List String) (stations : List Nat)
    (w : String) : avg_v workers stations (VarId.total_hours w) = 0 := rfl

theorem avg_v_dev_eq (workers : List String) (stations : List Nat)
    (w : String) :
    avg_v workers stations (VarId.deviation w) =
      average_hours workers stations := rfl

theorem evalE_sumE_zero (v : VarId → ℚ) (l : List LinExpr)
    (h : ∀ e ∈ l, evalE v e = 0) : evalE v (sumE l) = 0 := by
  induction l with
  | nil => simp [sumE, numE, evalE]
  | cons a t ih =>
    have hh : sumE (a :: t) = addE a (sumE t) := rfl
    rw [hh, evalE_addE, h a (List.mem_cons_self a t),
      ih (fun e he => h e (List.mem_cons_of_mem a he)), add_zero]

theorem eval_sum_works_zero (workers : List String) (stations : List Nat)
    (w : String) :
    evalE (avg_v workers stations) (sum_works stations w) = 0 := by
  apply evalE_sumE_zero
  intro e he
  simp only [sum_works, List.mem_flatMap, List.mem_map] at he
  obtain ⟨s, hs, d, hd, sh, hsh, rfl⟩ := he
  rw [evalE_varE, avg_v_works_eq]

theorem average_hours_nonneg (workers : List String) (stations : List Nat) :
    0 ≤ average_hours workers stations := by
  unfold average_hours
  positivity

/-- The zero-assignment value map `avg_v` satisfies every row of any built
model. -/
theorem avg_v_sat (workers : List String) (stations : List Nat) :
    satModel (avg_v workers stations) (build_model_ok workers stations) := by
  intro c hc
  simp only [build_model_ok, build_constraints, List.mem_append] at hc
  rcases hc with ((((((hc | hc) | hc) | hc) | hc) | hc) | hc)
  · obtain ⟨w, hw, rfl⟩ := List.mem_map.mp hc
    simp only [hours_con, satCon]
    rw [evalE_varE, eval_sum_works_zero, avg_v_total_eq]
  · simp only [excl_cons, List.mem_flatMap, List.mem_map] at hc
    obtain ⟨d, hd, sh, hsh, w, hw, rfl⟩ := hc
    simp only [excl_con, satCon]
    have h0 : evalE (avg_v workers stations)
        (sumE (stations.map fun s => varE (VarId.works w s d sh))) = 0 := by
      apply evalE_sumE_zero
      intro e he
      obtain ⟨s, hs, rfl⟩ := List.mem_map.mp he
      rw [evalE_varE, avg_v_works_eq]
    rw [h0, evalE_numE]
    norm_num
  · simp only [pairing_cons, List.mem_flatMap, List.mem_map] at hc
    obtain ⟨s, hs, d, hd, w, hw, rfl⟩ := hc
    simp only [pairing_con, satCon]
    rw [evalE_varE, evalE_varE, avg_v_works_eq, avg_v_works_eq]
  · simp only [rest_cons, List.mem_flatMap, List.mem_map] at hc
    obtain ⟨i, hi, w, hw, rfl⟩ := hc
    simp only [rest_con, satCon]
    have h0 : evalE (avg_v workers stations)
        (sumE (stations.flatMap fun s => shifts.map fun sh =>
          addE (varE (VarId.works w s (days.getD i "") sh))
            (varE (VarId.works w s
              (days.getD (if i < days.length - 1 then i + 1 else 0) "") sh)))) =
        0 := by
      apply evalE_sumE_zero
      intro e he
      simp only [List.mem_flatMap, List.mem_map] at he
      obtain ⟨s, hs, sh, hsh, rfl⟩ := he
      rw [evalE_addE, evalE_varE, evalE_varE, avg_v_works_eq, avg_v_works_eq,
        add_zero]
    rw [h0, evalE_numE]
    norm_num
  · simp only [capacity_cons, List.mem_flatMap, List.mem_map] at hc
    obtain ⟨s, hs, d, hd, sh, hsh, rfl⟩ := hc
    simp only [capacity_con, satCon]
    have h0 : evalE (avg_v workers stations)
        (sumE (workers.map fun w => varE (VarId.works w s d sh))) = 0 := by
      apply evalE_sumE_zero
      intro e he
      obtain ⟨w, hw, rfl⟩ := List.mem_map.mp he
      rw [evalE_varE, avg_v_works_eq]
    rw [h0, evalE_numE]
    norm_num
  · simp only [deviation_cons, List.mem_flatMap] at hc
    obtain ⟨w, hw, hc2⟩ := hc
    have hnn := average_hours_nonneg workers stations
    simp only [deviation_cons_of, List.mem_cons, List.mem_singleton] at hc2
    rcases hc2 with rfl | rfl | h
    · simp only [satCon]
      rw [evalE_varE, evalE_subE, evalE_varE, evalE_numE, avg_v_dev_eq,
        avg_v_total_eq]
      linarith
    · simp only [satCon]
      rw [evalE_varE, evalE_subE, evalE_numE, evalE_varE, avg_v_dev_eq,
        avg_v_total_eq]
      linarith
    · cases h
  · obtain ⟨w, hw, rfl⟩ := List.mem_map.mp hc
    simp only [needed_con, satCon]
    rw [evalE_smulE, evalE_varE, eval_sum_works_zero, avg_v_needed_eq,
      mul_zero]

/-- A successful build returns exactly the model `build_model_ok` assembles. -/
theorem build_model_ok_eq (workers : List String) (stations : List Nat)
    (m : Model) (hm : build_model workers stations = Except.ok m) :
    m = build_model_ok workers stations := by
  unfold build_model at hm
  split at hm
  · cases hm
  · cases hm
    rfl

/-! ### Membership of each row family in the built constraint list -/

theorem mem_build_of_rest (workers : List String) (stations : List Nat)
    (w : String) (hw : w ∈ workers) (i : Nat) (hi : i < 7) :
    rest_con stations w i ∈ build_constraints workers stations := by
  have h1 : rest_con stations w i ∈ rest_cons workers stations :=
    List.mem_flatMap.mpr ⟨i, List.mem_range.mpr (by simpa [days] using hi),
      List.mem_map_of_mem _ hw⟩
  simp only [build_constraints, List.mem_append]
  tauto

theorem mem_build_of_capacity (workers : List String) (stations : List Nat)
    (s : Nat) (hs : s ∈ stations) (d : String) (hd : d ∈ days)
    (sh : String) (hsh : sh ∈ shifts) :
    capacity_con workers s d sh ∈ build_constraints workers stations := by
  have h1 : capacity_con workers s d sh ∈ capacity_cons workers stations :=
    List.mem_flatMap.mpr ⟨s, hs, List.mem_flatMap.mpr ⟨d, hd,
      List.mem_map_of_mem _ hsh⟩⟩
  simp only [build_constraints, List.mem_append]
  tauto

theorem mem_build_of_pairing (workers : List String) (stations : List Nat)
    (s : Nat) (hs : s ∈ stations) (d : String) (hd : d ∈ days)
    (w : String) (hw : w ∈ workers) :
    pairing_con s d w ∈ build_constraints workers stations := by
  have h1 : pairing_con s d w ∈ pairing_cons workers stations :=
    List.mem_flatMap.mpr ⟨s, hs, List.mem_flatMap.mpr ⟨d, hd,
      List.mem_map_of_mem _ hw⟩⟩
  simp only [build_constraints, List.mem_append]
  tauto

theorem mem_build_of_deviation (workers : List String) (stations : List Nat)
    (w : String) (hw : w ∈ workers) (c : Row)
    (hc : c ∈ deviation_cons_of workers stations w) :
    c ∈ build_constraints workers stations := by
  have h1 : c ∈ deviation_cons workers stations :=
    List.mem_flatMap.mpr ⟨w, hw, hc⟩
  simp only [build_constraints, List.mem_append]
  tauto

theorem mem_build_of_needed (workers : List String) (stations : List Nat)
    (w : String) (hw : w ∈ workers) :
    needed_con stations w ∈ build_constraints workers stations := by
  have h1 : needed_con stations w ∈ needed_cons workers stations :=
    List.mem_map_of_mem _ hw
  simp only [build_constraints, List.mem_append]
  tauto

/-! ### C1 -/

/-- C1 counterexample: calling the builder with an empty worker list (and
station list `[0]`) fails with ZeroDivisionError — Python's error at the
`average_hours` division — and not with the `InvalidConfiguration` error the
claim names; no validation precedes model construction in the source. -/
theorem C1_counterexample :
    build_model [] [0] = Except.error BuildError.zeroDivisionError ∧
    build_model [] [0] ≠ Except.error BuildError.invalidConfiguration := by
  refine ⟨rfl, ?_⟩
  intro h
  simp [build_model] at h

/-- C1 (amended): for every call of the model builder with an empty worker
list, the build fails — with an uncaught ZeroDivisionError raised when
computing `average_hours`, not with `InvalidConfiguration` — no model is
returned, and the solver is never invoked (the pipeline yields the build
error no matter what the solver would do). -/
theorem C1_empty_workers_build_fails (workers : List String)
    (stations : List Nat) (solve : Model → (VarId → ℚ)) (h : workers = []) :
    build_model workers stations = Except.error BuildError.zeroDivisionError ∧
    run_pipeline solve workers stations =
      Except.error BuildError.zeroDivisionError := by
  subst h
  exact ⟨rfl, rfl⟩

/-- Witness for C1: the concrete empty-worker run with one station. -/
theorem C1_empty_workers_build_fails_witness :
    build_model [] [0] = Except.error BuildError.zeroDivisionError ∧
    run_pipeline (fun _ _ => 0) [] [0] =
      Except.error BuildError.zeroDivisionError :=
  C1_empty_workers_build_fails [] [0] (fun _ _ => 0) rfl

/-! ### C2, C3, C4: constraint rows and their consequences for solutions -/

/-- C2: for every worker of the list and every day index i < 7, the built
model contains the rest-rule row bounding by 2 the summed assignments over
days[i] and its cyclic successor days[(i+1) mod 7] (the successor of the
last day wraps to the first), and every value map satisfying the model has
that pairwise-adjacent sum at most 2. -/
theorem C2_rest_rule (workers : List String) (stations : List Nat) (m : Model)
    (hm : build_model workers stations = Except.ok m) (w : String)
    (hw : w ∈ workers) (i : Nat) (hi : i < 7) (v : VarId → ℚ)
    (hv : satModel v m) :
    rest_con stations w i ∈ m.constraints ∧
    ((stations.flatMap fun s => shifts.map fun sh =>
        v (VarId.works w s (days.getD i "") sh) +
          v (VarId.works w s (days.getD ((i + 1) % 7) "") sh)).sum ≤ 2) := by
  have hmm := build_model_ok_eq workers stations m hm
  subst hmm
  have hmem := mem_build_of_rest workers stations w hw i hi
  refine ⟨hmem, ?_⟩
  have hc := hv _ hmem
  simp only [rest_con, satCon] at hc
  rw [evalE_sumE, evalE_numE, List.map_flatMap] at hc
  simp only [List.map_map, Function.comp_def, evalE_addE, evalE_varE] at hc
  have hidx : (if i < days.length - 1 then i + 1 else 0) = (i + 1) % 7 := by
    have h7 : days.length = 7 := rfl
    rw [h7]
    split <;> omega
  rw [hidx] at hc
  exact hc

/-- Witness for C2: worker "W1", station 0, day index 0, under the
satisfying value map `avg_v`. -/
theorem C2_rest_rule_witness :
    rest_con [0] "W1" 0 ∈ (build_model_ok ["W1"] [0]).constraints ∧
    (([0] : List Nat).flatMap fun s => shifts.map fun sh =>
        avg_v ["W1"] [0] (VarId.works "W1" s (days.getD 0 "") sh) +
          avg_v ["W1"] [0]
            (VarId.works "W1" s (days.getD ((0 + 1) % 7) "") sh)).sum ≤ 2 :=
  C2_rest_rule ["W1"] [0] (build_model_ok ["W1"] [0]) rfl "W1" (by simp) 0
    (by decide) (avg_v ["W1"] [0]) (avg_v_sat ["W1"] [0])

/-- C3: for every (station, day, shift), the built model contains the
capacity row bounding by exactly 2 (not 1) the number of workers assigned,
and every value map satisfying the model has that worker sum at most 2. -/
theorem C3_station_capacity (workers : List String) (stations : List Nat)
    (m : Model) (hm : build_model workers stations = Except.ok m)
    (s : Nat) (hs : s ∈ stations) (d : String) (hd : d ∈ days)
    (sh : String) (hsh : sh ∈ shifts) (v : VarId → ℚ) (hv : satModel v m) :
    capacity_con workers s d sh ∈ m.constraints ∧
    (workers.map fun w => v (VarId.works w s d sh)).sum ≤ 2 := by
  have hmm := build_model_ok_eq workers stations m hm
  subst hmm
  have hmem := mem_build_of_capacity workers stations s hs d hd sh hsh
  refine ⟨hmem, ?_⟩
  have hc := hv _ hmem
  simp only [capacity_con, satCon] at hc
  rw [evalE_sumE, evalE_numE, List.map_map] at hc
  simpa only [Function.comp_def, evalE_varE] using hc

/-- Witness for C3: station 0, Monday, day shift, under `avg_v`. -/
theorem C3_station_capacity_witness :
    capacity_con ["W1"] 0 "Mon" "day" ∈ (build_model_ok ["W1"] [0]).constraints ∧
    ((["W1"] : List String).map fun w =>
      avg_v ["W1"] [0] (VarId.works w 0 "Mon" "day")).sum ≤ 2 :=
  C3_station_capacity ["W1"] [0] (build_model_ok ["W1"] [0]) rfl 0 (by simp)
    "Mon" (by simp [days]) "day" (by simp [shifts]) (avg_v ["W1"] [0])
    (avg_v_sat ["W1"] [0])

/-- C4: for every (station, day, worker), the built model contains the
pairing row equating the day-shift and night-shift assignment, and every
value map satisfying the model gives them equal values. -/
theorem C4_pairing (workers : List String) (stations : List Nat) (m : Model)
    (hm : build_model workers stations = Except.ok m) (s : Nat)
    (hs : s ∈ stations) (d : String) (hd : d ∈ days) (w : String)
    (hw : w ∈ workers) (v : VarId → ℚ) (hv : satModel v m) :
    pairing_con s d w ∈ m.constraints ∧
    v (VarId.works w s d "day") = v (VarId.works w s d "night") := by
  have hmm := build_model_ok_eq workers stations m hm
  subst hmm
  have hmem := mem_build_of_pairing workers stations s hs d hd w hw
  have hc := hv _ hmem
  simp only [pairing_con, satCon, evalE_varE] at hc
  exact ⟨hmem, hc⟩

/-- Witness for C4: worker "W1", station 0, Monday, under `avg_v`. -/
theorem C4_pairing_witness :
    pairing_con 0 "Mon" "W1" ∈ (build_model_ok ["W1"] [0]).constraints ∧
    avg_v ["W1"] [0] (VarId.works "W1" 0 "Mon" "day") =
      avg_v ["W1"] [0] (VarId.works "W1" 0 "Mon" "night") :=
  C4_pairing ["W1"] [0] (build_model_ok ["W1"] [0]) rfl 0 (by simp)
    "Mon" (by simp [days]) "W1" (by simp) (avg_v ["W1"] [0])
    (avg_v_sat ["W1"] [0])

/-- C5: for every worker, the built model contains both one-sided deviation
rows, and the `average_hours` they use is the exact rational ratio
(|stations| * 7 * 2) / |workers|, not a rounded value. -/
theorem C5_deviation_rows (workers : List String) (stations : List Nat)
    (m : Model) (hm : build_model workers stations = Except.ok m)
    (w : String) (hw : w ∈ workers) :
    Row.ge (varE (VarId.deviation w))
        (subE (varE (VarId.total_hours w))
          (numE (average_hours workers stations))) ∈ m.constraints ∧
    Row.ge (varE (VarId.deviation w))
        (subE (numE (average_hours workers stations))
          (varE (VarId.total_hours w))) ∈ m.constraints ∧
    average_hours workers stations =
      ((stations.length : ℚ) * 7 * 2) / (workers.length : ℚ) := by
  have hmm := build_model_ok_eq workers stations m hm
  subst hmm
  refine ⟨?_, ?_, ?_⟩
  · exact mem_build_of_deviation workers stations w hw _
      (by simp [deviation_cons_of])
  · exact mem_build_of_deviation workers stations w hw _
      (by simp [deviation_cons_of])
  · simp [average_hours, days, shifts]

/-- Witness for C5: the one-worker, one-station build. -/
theorem C5_deviation_rows_witness :
    Row.ge (varE (VarId.deviation "W1"))
        (subE (varE (VarId.total_hours "W1"))
          (numE (average_hours ["W1"] [0]))) ∈
        (build_model_ok ["W1"] [0]).constraints ∧
    Row.ge (varE (VarId.deviation "W1"))
        (subE (numE (average_hours ["W1"] [0]))
          (varE (VarId.total_hours "W1"))) ∈
        (build_model_ok ["W1"] [0]).constraints ∧
    average_hours ["W1"] [0] =
      (((([0] : List Nat)).length : ℚ) * 7 * 2) /
        (((["W1"] : List String)).length : ℚ) :=
  C5_deviation_rows ["W1"] [0] (build_model_ok ["W1"] [0]) rfl "W1" (by simp)

/-! ### C6: the needed flag is only constrained one-sidedly -/

/-- C6: for every worker w of the list, the built model contains the row
`needed[w] * max_possible_shifts >= total_assignments(w)` with
`max_possible_shifts = |stations| * 7 * 2`; every constraint row of the
model that mentions `needed[w]` IS that row (so nothing bounds `needed[w]`
from the other direction); and the objective has no term referencing any
`needed` variable. -/
theorem C6_needed_one_sided (workers : List String) (stations : List Nat)
    (m : Model) (hm : build_model workers stations = Except.ok m)
    (w : String) (hw : w ∈ workers) (c : Row) (hc : c ∈ m.constraints)
    (hmention : VarId.needed w ∈ conVars c) (w' : String) :
    needed_con stations w ∈ m.constraints ∧
    max_possible_shifts stations = stations.length * 7 * 2 ∧
    c = needed_con stations w ∧
    VarId.needed w' ∉ m.obj.terms.map Prod.snd := by
  have hmm := build_model_ok_eq workers stations m hm
  subst hmm
  refine ⟨mem_build_of_needed workers stations w hw, ?_, ?_, ?_⟩
  · simp [max_possible_shifts, days, shifts]
  · simp only [build_model_ok, build_constraints, List.mem_append] at hc
    rcases hc with ((((((hc | hc) | hc) | hc) | hc) | hc) | hc)
    · obtain ⟨w2, hw2, rfl⟩ := List.mem_map.mp hc
      exfalso
      simp [conVars, hours_con, sum_works, sumE_terms, varE] at hmention
      obtain ⟨q, e, ⟨s, hs, d, hd, sh, hsh, rfl⟩, hmem⟩ := hmention
      simp at hmem
    · simp only [excl_cons, List.mem_flatMap, List.mem_map] at hc
      obtain ⟨d, hd, sh, hsh, w2, hw2, rfl⟩ := hc
      exfalso
      simp [conVars, excl_con, sumE_terms, varE, numE] at hmention
    · simp only [pairing_cons, List.mem_flatMap, List.mem_map] at hc
      obtain ⟨s, hs, d, hd, w2, hw2, rfl⟩ := hc
      exfalso
      simp [conVars, pairing_con, varE] at hmention
    · simp only [rest_cons, List.mem_flatMap, List.mem_map] at hc
      obtain ⟨i, hi, w2, hw2, rfl⟩ := hc
      exfalso
      simp [conVars, rest_con, sumE_terms, addE, varE, numE] at hmention
    · simp only [capacity_cons, List.mem_flatMap, List.mem_map] at hc
      obtain ⟨s, hs, d, hd, sh, hsh, rfl⟩ := hc
      exfalso
      simp [conVars, capacity_con, sumE_terms, varE, numE] at hmention
    · simp only [deviation_cons, List.mem_flatMap] at hc
      obtain ⟨w2, hw2, hc2⟩ := hc
      simp only [deviation_cons_of, List.mem_cons, List.not_mem_nil,
        or_false] at hc2
      rcases hc2 with rfl | rfl
      · exfalso
        simp [conVars, subE, varE, numE] at hmention
      · exfalso
        simp [conVars, subE, varE, numE] at hmention
    · obtain ⟨w2, hw2, rfl⟩ := List.mem_map.mp hc
      have hww : w = w2 := by
        simp [conVars, needed_con, smulE, varE, sum_works, sumE_terms]
          at hmention
        rcases hmention with h | ⟨q, e, ⟨s, hs, d, hd, sh, hsh, rfl⟩, hmem⟩
        · exact h
        · exfalso
          simp at hmem
      subst hww
      rfl
  · intro h
    simp only [build_model_ok] at h
    simp [objective, subE, smulE, sumE_terms, varE] at h
    obtain ⟨q, e, ⟨w2, hw2, s, hs, d, hd, sh, hsh, rfl⟩, hmem⟩ := h
    simp at hmem

/-- Witness for C6: the one-worker one-station build, with c the needed row
itself. -/
theorem C6_needed_one_sided_witness :
    needed_con [0] "W1" ∈ (build_model_ok ["W1"] [0]).constraints ∧
    max_possible_shifts [0] = ([0] : List Nat).length * 7 * 2 ∧
    needed_con [0] "W1" = needed_con [0] "W1" ∧
    VarId.needed "W1" ∉ (build_model_ok ["W1"] [0]).obj.terms.map Prod.snd :=
  C6_needed_one_sided ["W1"] [0] (build_model_ok ["W1"] [0]) rfl "W1"
    (by simp) (needed_con [0] "W1") (mem_build_of_needed ["W1"] [0] "W1"
    (by simp)) (by simp [conVars, needed_con, smulE, varE]) "W1"

/-! ### Lookup and length helpers for the extractor -/

theorem lookup_map_pair {α β : Type} [BEq α] [LawfulBEq α] (l : List α)
    (f : α → β) (a : α) (ha : a ∈ l) :
    (l.map fun x => (x, f x)).lookup a = some (f a) := by
  induction l with
  | nil => cases ha
  | cons x t ih =>
    rw [List.map_cons, List.lookup_cons]
    cases hax : a == x
    · have hne : a ≠ x := by
        intro h
        subst h
        simp at hax
      have ht : a ∈ t := by
        rcases List.mem_cons.mp ha with h | h
        · exact absurd h hne
        · exact h
      simpa using ih ht
    · have heq : a = x := eq_of_beq hax
      subst heq
      simp

theorem table_lookup_eq (v : VarId → ℚ) (workers : List String)
    (stations : List Nat) (s : Nat) (d sh : String) (hs : s ∈ stations)
    (hd : d ∈ days) (hsh : sh ∈ shifts) :
    table_lookup (get_work_table v workers stations) s d sh =
      workers.filter fun w => decide (v (VarId.works w s d sh) = 1) := by
  unfold table_lookup get_work_table
  rw [lookup_map_pair _ _ _ hs, Option.getD_some,
    lookup_map_pair _ _ _ hd, Option.getD_some,
    lookup_map_pair _ _ _ hsh, Option.getD_some]

/-! ### C7: roster membership tests exact equality with 1 -/

/-- C7 counterexample: under `cex_v` every works value is 9/10, which is
above the 0.5 threshold the claim describes, yet worker "W1" is absent from
the roster entry for (0, "Mon", "day"): the source's test is exact equality
`value == 1`, not an epsilon-tolerant rounding. -/
theorem C7_counterexample :
    (1 / 2 : ℚ) < cex_v (VarId.works "W1" 0 "Mon" "day") ∧
    "W1" ∉ table_lookup (get_work_table cex_v ["W1"] [0]) 0 "Mon" "day" := by
  constructor
  · show (1 / 2 : ℚ) < 9 / 10
    norm_num
  · rw [table_lookup_eq cex_v ["W1"] [0] 0 "Mon" "day" (by simp)
      (by simp [days]) (by simp [shifts])]
    simp [cex_v, List.mem_filter]
    norm_num

/-- C7 (amended): the roster view includes worker w at (station, day, shift)
exactly when w is in the worker list and the stored value of
works[w, station, day, shift] equals exactly the number 1 — values merely
close to 1 (for example above 0.5) are not included. -/
theorem C7_roster_exact_one (v : VarId → ℚ) (workers : List String)
    (stations : List Nat) (w : String) (s : Nat) (d sh : String)
    (hs : s ∈ stations) (hd : d ∈ days) (hsh : sh ∈ shifts) :
    w ∈ table_lookup (get_work_table v workers stations) s d sh ↔
      w ∈ workers ∧ v (VarId.works w s d sh) = 1 := by
  rw [table_lookup_eq v workers stations s d sh hs hd hsh]
  simp [List.mem_filter]

/-- Witness for C7: the all-ones value map, worker "W1", station 0. -/
theorem C7_roster_exact_one_witness :
    ("W1" ∈ table_lookup (get_work_table one_v ["W1"] [0]) 0 "Mon" "day" ↔
      "W1" ∈ (["W1"] : List String) ∧
        one_v (VarId.works "W1" 0 "Mon" "day") = 1) :=
  C7_roster_exact_one one_v ["W1"] [0] "W1" 0 "Mon" "day" (by simp)
    (by simp [days]) (by simp [shifts])

/-! ### C8: the per-worker view is total on the worker list -/

/-- C8: the per-worker view gives every worker of the list an entry holding
its (possibly empty) assignment sequence, and that sequence is empty exactly
when no (station, day, shift) value equals 1 — an unassigned worker is
present with an empty list (rendered as "(No shifts assigned)") rather than
omitted. -/
theorem C8_worker_view_total (v : VarId → ℚ) (workers : List String)
    (stations : List Nat) (w : String) (hw : w ∈ workers) :
    (generate_worker_schedule v workers stations).lookup w =
      some (worker_assignments v stations w) ∧
    (worker_assignments v stations w = [] ↔
      ∀ s ∈ stations, ∀ d ∈ days, ∀ sh ∈ shifts,
        v (VarId.works w s d sh) ≠ 1) := by
  constructor
  · unfold generate_worker_schedule
    exact lookup_map_pair _ _ _ hw
  · unfold worker_assignments
    rw [List.filterMap_eq_nil_iff]
    constructor
    · intro h s hs d hd sh hsh hv1
      have hmem : ((s, d, sh) : Nat × String × String) ∈
          (stations.flatMap fun s2 => days.flatMap fun d2 =>
            shifts.map fun sh2 => (s2, d2, sh2)) :=
        List.mem_flatMap.mpr ⟨s, hs, List.mem_flatMap.mpr ⟨d, hd,
          List.mem_map_of_mem _ hsh⟩⟩
      have h2 := h _ hmem
      simp [hv1] at h2
    · intro h t ht
      simp only [List.mem_flatMap, List.mem_map] at ht
      obtain ⟨s, hs, d, hd, sh, hsh, rfl⟩ := ht
      simp [h s hs d hd sh hsh]

/-- Witness for C8: worker "W1" under the zero-assignment value map. -/
theorem C8_worker_view_total_witness :
    (generate_worker_schedule (avg_v ["W1"] [0]) ["W1"] [0]).lookup "W1" =
      some (worker_assignments (avg_v ["W1"] [0]) [0] "W1") ∧
    (worker_assignments (avg_v ["W1"] [0]) [0] "W1" = [] ↔
      ∀ s ∈ ([0] : List Nat), ∀ d ∈ days, ∀ sh ∈ shifts,
        avg_v ["W1"] [0] (VarId.works "W1" s d sh) ≠ 1) :=
  C8_worker_view_total (avg_v ["W1"] [0]) ["W1"] [0] "W1" (by simp)

/-! ### C9: extraction is deterministic and pure -/

/-- C9: the three extraction views are pure functions of the value map: any
two value maps agreeing on the `works` (respectively `needed`) variables
produce identical roster, per-worker and needed-workers views; in
particular two applications to the same value map are identical and no
state is mutated. -/
theorem C9_extraction_deterministic (v1 v2 : VarId → ℚ)
    (workers : List String) (stations : List Nat)
    (hworks : ∀ w s d sh,
      v1 (VarId.works w s d sh) = v2 (VarId.works w s d sh))
    (hneed : ∀ w, v1 (VarId.needed w) = v2 (VarId.needed w)) :
    get_work_table v1 workers stations = get_work_table v2 workers stations ∧
    generate_worker_schedule v1 workers stations =
      generate_worker_schedule v2 workers stations ∧
    get_workers_needed v1 workers = get_workers_needed v2 workers := by
  refine ⟨?_, ?_, ?_⟩
  · simp only [get_work_table, hworks]
  · simp only [generate_worker_schedule, worker_assignments, hworks]
  · simp only [get_workers_needed, hneed]

/-- Witness for C9: the all-ones value map against itself. -/
theorem C9_extraction_deterministic_witness :
    get_work_table one_v ["W1"] [0] = get_work_table one_v ["W1"] [0] ∧
    generate_worker_schedule one_v ["W1"] [0] =
      generate_worker_schedule one_v ["W1"] [0] ∧
    get_workers_needed one_v ["W1"] = get_workers_needed one_v ["W1"] :=
  C9_extraction_deterministic one_v one_v ["W1"] [0]
    (fun _ _ _ _ => rfl) (fun _ => rfl)

/-! ### C10: the Streamlit station list is off by one -/

theorem length_flatMap_const {α β : Type} (l : List α) (f : α → List β)
    (k : Nat) (h : ∀ a ∈ l, (f a).length = k) :
    (l.flatMap f).length = l.length * k := by
  induction l with
  | nil => simp
  | cons a t ih =>
    rw [List.flatMap_cons, List.length_append, h a (List.mem_cons_self a t),
      ih (fun b hb => h b (List.mem_cons_of_mem a hb)), List.length_cons]
    ring

theorem works_index_length (workers : List String) (stations : List Nat) :
    (works_index workers stations).length =
      workers.length * (stations.length * 14) := by
  unfold works_index
  apply length_flatMap_const
  intro w hw
  apply length_flatMap_const
  intro s hs
  have h2 : ∀ d ∈ days, (shifts.map fun sh =>
      ((w, s, d, sh) : String × Nat × String × String)).length = 2 := by
    intro d hd
    simp [shifts]
  rw [length_flatMap_const days _ 2 h2]
  simp [days]

theorem capacity_cons_length (workers : List String) (stations : List Nat) :
    (capacity_cons workers stations).length = stations.length * 14 := by
  unfold capacity_cons
  apply length_flatMap_const
  intro s hs
  have h2 : ∀ d ∈ days, (shifts.map fun sh =>
      capacity_con workers s d sh).length = 2 := by
    intro d hd
    simp [shifts]
  rw [length_flatMap_const days _ 2 h2]
  simp [days]

/-- C10: for every configured station count n ≥ 1, the Streamlit app's
station list `list(range(num_stations+1))` has n + 1 elements — the indices
0 through n — so the works-variable count, the station-capacity row count
and `average_hours` are all computed from n + 1 stations rather than n. -/
theorem C10_station_off_by_one (workers : List String) (n : Nat)
    (h : 1 ≤ n) :
    (stations_of n).length = n + 1 ∧
    (∀ k : Nat, k ∈ stations_of n ↔ k ≤ n) ∧
    (works_index workers (stations_of n)).length =
      workers.length * ((n + 1) * 14) ∧
    (capacity_cons workers (stations_of n)).length = (n + 1) * 14 ∧
    average_hours workers (stations_of n) =
      ((n : ℚ) + 1) * 14 / (workers.length : ℚ) := by
  refine ⟨?_, ?_, ?_, ?_, ?_⟩
  · simp [stations_of]
  · intro k
    simp only [stations_of, List.mem_range]
    omega
  · rw [works_index_length]
    simp [stations_of]
  · rw [capacity_cons_length]
    simp [stations_of]
  · simp only [average_hours, stations_of, List.length_range]
    simp [days, shifts]
    ring

/-- Witness for C10: configured count 1 gives 2 stations {0, 1}. -/
theorem C10_station_off_by_one_witness :
    (stations_of 1).length = 1 + 1 ∧
    (∀ k : Nat, k ∈ stations_of 1 ↔ k ≤ 1) ∧
    (works_index ["W1"] (stations_of 1)).length =
      (["W1"] : List String).length * ((1 + 1) * 14) ∧
    (capacity_cons ["W1"] (stations_of 1)).length = (1 + 1) * 14 ∧
    average_hours ["W1"] (stations_of 1) =
      (((1 : Nat) : ℚ) + 1) * 14 / (((["W1"] : List String).length : ℚ)) :=
  C10_station_off_by_one ["W1"] 1 (by decide)
